import Mathlib

/-!
# Powergate FFS client (`api/client/ffs.go`): streaming adapters, chunked upload, request building

A shallow embedding of the client-side logic of `api/client/ffs.go`:

* Go `error` values are `Option Error` (`none` is `nil`);
* Go pointers that the code dereferences are `Option`s, a dereference of `none` is a fault;
* the background goroutines of `WatchJobs` / `WatchLogs` are functions from the finite script of
  `stream.Recv()` results to the trace of channel operations they perform;
* `AddToHot` is a function from the script of `data.Read(buffer)` results and the behaviour of the
  upload stream to the trace of stream operations and the returned pair;
* Go `int` is taken as 64 bit wide, conversions `int64(x)` / `int(x)` wrap explicitly.
-/

namespace Powergate

/-! ## Errors and gRPC status codes -/

/-- Numeric gRPC status code (`codes.Code`). -/
abbrev codes.Code := Nat

/-- The code `codes.OK`. -/
def codes.OK : codes.Code := 0

/-- The code `codes.Canceled`. -/
def codes.Canceled : codes.Code := 1

/-- The code `codes.Unknown`. -/
def codes.Unknown : codes.Code := 2

/-- Non-nil Go error values as the client can tell them apart: the sentinel `io.EOF`
(compared with `==`), an error carrying a gRPC status, and every other error. -/
inductive Error where
  | EOF
  | grpc (code : codes.Code) (msg : String)
  | other (msg : String)
  deriving DecidableEq, Repr

/-- `status.Code(err)`: `OK` for `nil`, the carried code for a status error, `Unknown` otherwise. -/
def status.Code : Option Error → codes.Code
  | none => codes.OK
  | some (Error.grpc c _) => c
  | some _ => codes.Unknown

/-! ## Content addresses -/

/-- `cid.Cid` of go-cid: a wrapper around the binary string form. -/
structure cid.Cid where
  str : String := ""
  deriving DecidableEq, Repr

/-! ## `ff` value types, as used by the client -/

/-- `ff.JobID` is a string type. -/
abbrev ff.JobID := String

/-- `ff.APIID` is a string type. -/
abbrev ff.APIID := String

/-- `ff.JobStatus` is an integer type. -/
abbrev ff.JobStatus := Int

/-- Modelled from the spec: the constant `ff.EmptyJobID` is declared outside the given sources;
the spec calls it the distinguished empty sentinel of `JobID`, the empty string. -/
def ff.EmptyJobID : ff.JobID := ""

/-- `ff.Job`, with Go zero values as defaults. -/
structure ff.Job where
  ID : ff.JobID := ""
  APIID : ff.APIID := ""
  Cid : cid.Cid := {}
  Status : ff.JobStatus := 0
  ErrCause : String := ""
  deriving DecidableEq, Repr

/-- `time.Time` as produced by `time.Unix(sec, nsec)`. -/
structure time.Time where
  sec : Int := 0
  nsec : Int := 0
  deriving DecidableEq, Repr

/-- `time.Unix(sec, nsec)` for `0 ≤ nsec < 1e9`. -/
def time.Unix (sec nsec : Int) : time.Time := { sec := sec, nsec := nsec }

/-- `ff.LogEntry`, with Go zero values as defaults. -/
structure ff.LogEntry where
  Cid : cid.Cid := {}
  Timestamp : time.Time := {}
  Jid : ff.JobID := ""
  Msg : String := ""
  deriving DecidableEq, Repr

/-! ## `rpc` wire messages of the watch streams -/

/-- `rpc.Job`. -/
structure rpc.Job where
  ID : String := ""
  ApiID : String := ""
  Cid : String := ""
  Status : Int := 0
  ErrCause : String := ""
  deriving DecidableEq, Repr

/-- `rpc.WatchJobsReply`; `Job` is a pointer field. -/
structure rpc.WatchJobsReply where
  Job : Option rpc.Job := none
  deriving DecidableEq, Repr

/-- `rpc.LogEntry`. -/
structure rpc.LogEntry where
  Cid : String := ""
  Jid : String := ""
  Time : Int := 0
  Msg : String := ""
  deriving DecidableEq, Repr

/-- `rpc.WatchLogsReply`; `LogEntry` is a pointer field. -/
structure rpc.WatchLogsReply where
  LogEntry : Option rpc.LogEntry := none
  deriving DecidableEq, Repr

/-! ## Events and channel traces -/

/-- `JobEvent` of the client. -/
structure JobEvent where
  Job : ff.Job := {}
  Err : Option Error := none
  deriving DecidableEq, Repr

/-- `LogEvent` of the client. -/
structure LogEvent where
  LogEntry : ff.LogEntry := {}
  Err : Option Error := none
  deriving DecidableEq, Repr

/-- One operation performed on the consumer channel `ch`. -/
inductive ChanOp (ε : Type) where
  | send (ev : ε)
  | close
  deriving DecidableEq, Repr

/-- How a run of a forwarding goroutine stands once the script of `Recv` results is used up:
it left the loop by `break`, it faulted on a nil dereference, or it is waiting in `Recv`. -/
inductive Ending where
  | exited
  | faulted
  | waiting
  deriving DecidableEq, Repr

/-- Observable run of a forwarding goroutine: the channel operations in order, the number of
`stream.Recv()` calls made, and how the run stands. -/
structure Forwarding (ε : Type) where
  ops : List (ChanOp ε)
  recvs : Nat
  ending : Ending
  deriving DecidableEq, Repr

/-- The run that performs `ch <- ev` after one `Recv` and then goes on as `run`. -/
def Forwarding.after {ε : Type} (ev : ε) (run : Forwarding ε) : Forwarding ε :=
  { ops := ChanOp.send ev :: run.ops, recvs := run.recvs + 1, ending := run.ending }

/-- The goroutine of `WatchJobs` (ffs.go 209-237), run against the script of the results
`(reply, err)` of successive `stream.Recv()` calls; `cidDecode` is `cid.Decode`. -/
def WatchJobs.loop (cidDecode : String → Except Error cid.Cid) :
    List (Option rpc.WatchJobsReply × Option Error) → Forwarding JobEvent
  | [] => { ops := [], recvs := 0, ending := Ending.waiting }
  | (reply, err) :: rest =>
    if err = some Error.EOF ∨ status.Code err = codes.Canceled then
      { ops := [ChanOp.close], recvs := 1, ending := Ending.exited }
    else
      match err with
      | some e =>
        { ops := [ChanOp.send { Err := some e }, ChanOp.close], recvs := 1,
          ending := Ending.exited }
      | none =>
        match reply with
        | none => { ops := [], recvs := 1, ending := Ending.faulted }
        | some r =>
          match r.Job with
          | none => { ops := [], recvs := 1, ending := Ending.faulted }
          | some j =>
            match cidDecode j.Cid with
            | Except.error e =>
              { ops := [ChanOp.send { Err := some e }, ChanOp.close], recvs := 1,
                ending := Ending.exited }
            | Except.ok c =>
              Forwarding.after
                { Job := { ID := j.ID, APIID := j.ApiID, Cid := c, Status := j.Status,
                           ErrCause := j.ErrCause } }
                (WatchJobs.loop cidDecode rest)

/-- The goroutine of `WatchLogs` (ffs.go 315-343), run against the script of the results
`(reply, err)` of successive `stream.Recv()` calls; `cidDecode` is `cid.Decode`. -/
def WatchLogs.loop (cidDecode : String → Except Error cid.Cid) :
    List (Option rpc.WatchLogsReply × Option Error) → Forwarding LogEvent
  | [] => { ops := [], recvs := 0, ending := Ending.waiting }
  | (reply, err) :: rest =>
    if err = some Error.EOF ∨ status.Code err = codes.Canceled then
      { ops := [ChanOp.close], recvs := 1, ending := Ending.exited }
    else
      match err with
      | some e =>
        { ops := [ChanOp.send { Err := some e }, ChanOp.close], recvs := 1,
          ending := Ending.exited }
      | none =>
        match reply with
        | none => { ops := [], recvs := 1, ending := Ending.faulted }
        | some r =>
          match r.LogEntry with
          | none => { ops := [], recvs := 1, ending := Ending.faulted }
          | some l =>
            match cidDecode l.Cid with
            | Except.error e =>
              { ops := [ChanOp.send { Err := some e }, ChanOp.close], recvs := 1,
                ending := Ending.exited }
            | Except.ok c =>
              Forwarding.after
                { LogEntry := { Cid := c, Timestamp := time.Unix l.Time 0, Jid := l.Jid,
                                Msg := l.Msg } }
                (WatchLogs.loop cidDecode rest)

/-- `WatchJobs` (ffs.go 199-239): `opened` is the result of `f.client.WatchJobs`, either the
script of the stream it returns or the error. Returns the error of the call and, when the
stream was opened, the run of the goroutine it starts. -/
def WatchJobs (cidDecode : String → Except Error cid.Cid)
    (opened : Except Error (List (Option rpc.WatchJobsReply × Option Error))) :
    Option Error × Option (Forwarding JobEvent) :=
  match opened with
  | Except.error err => (some err, none)
  | Except.ok stream => (none, some (WatchJobs.loop cidDecode stream))

/-- `WatchLogs` (ffs.go 305-345): as `WatchJobs`, for the log stream. -/
def WatchLogs (cidDecode : String → Except Error cid.Cid)
    (opened : Except Error (List (Option rpc.WatchLogsReply × Option Error))) :
    Option Error × Option (Forwarding LogEvent) :=
  match opened with
  | Except.error err => (some err, none)
  | Except.ok stream => (none, some (WatchLogs.loop cidDecode stream))

/-! ## Results of synchronous calls -/

/-- Result of running a synchronous Go function against scripted collaborators: it returned a
value, it faulted (nil dereference or slice bound violation), or it never returns because a
collaborator call beyond the end of the script blocks. -/
inductive Outcome (α : Type) where
  | returned (a : α)
  | faulted
  | waiting
  deriving DecidableEq, Repr

/-- Sequencing of possibly faulting steps. -/
def Outcome.bind {α β : Type} (x : Outcome α) (f : α → Outcome β) : Outcome β :=
  match x with
  | Outcome.returned a => f a
  | Outcome.faulted => Outcome.faulted
  | Outcome.waiting => Outcome.waiting

instance : Monad Outcome where
  pure := Outcome.returned
  bind := Outcome.bind

/-- Dereference of a Go pointer: a fault on `nil`. -/
def deref {α : Type} : Option α → Outcome α
  | some a => Outcome.returned a
  | none => Outcome.faulted

/-! ## Chunked upload -/

/-- A Go `byte`. -/
abbrev byte := Fin 256

/-- Result of one `data.Read(buffer)`: the bytes placed at the front of the buffer
(`bytesRead` is their number) and the error. -/
structure ReadResult where
  data : List byte
  err : Option Error
  deriving DecidableEq, Repr

/-- `rpc.AddToHotReply`. -/
structure rpc.AddToHotReply where
  Cid : String := ""
  deriving DecidableEq, Repr

/-- The nil-safe getter `(*rpc.AddToHotReply).GetCid`. -/
def rpc.AddToHotReply.GetCid : Option rpc.AddToHotReply → String
  | some r => r.Cid
  | none => ""

/-- Behaviour of the client-streaming handle `rpc.FFS_AddToHotClient`: the result of the `i`-th
`Send` (counted from 0), of `RecvMsg`, and of `CloseAndRecv`. -/
structure rpc.FFS_AddToHotClient where
  Send : Nat → Option Error
  RecvMsg : Option Error
  CloseAndRecv : Option rpc.AddToHotReply × Option Error

/-- One call made on the upload stream. -/
inductive StreamOp where
  | Send (chunk : List byte)
  | RecvMsg
  | CloseAndRecv
  deriving DecidableEq, Repr

/-- Observable run of `AddToHot`: the stream calls in order, the number of `Read` calls made and
the outcome with the returned pair `(*cid.Cid, error)`. -/
structure Upload where
  ops : List StreamOp
  reads : Nat
  result : Outcome (Option cid.Cid × Option Error)
  deriving DecidableEq, Repr

/-- The run that made one `Read`, one successful `Send` of `chunk`, and then goes on as `run`. -/
def Upload.after (chunk : List byte) (run : Upload) : Upload :=
  { ops := StreamOp.Send chunk :: run.ops, reads := run.reads + 1, result := run.result }

/-- Length of the buffer `make([]byte, 1024*32)`. -/
def bufferLen : Nat := 1024 * 32

/-- The chunks handed to `Send` in a run, in transmission order. -/
def Upload.frames (run : Upload) : List (List byte) :=
  run.ops.filterMap fun op =>
    match op with
    | StreamOp.Send chunk => some chunk
    | _ => none

/-- The tail of `AddToHot` after the loop (ffs.go 389-398): `CloseAndRecv` and the decoding of
the reply. -/
def AddToHot.finish (cidDecode : String → Except Error cid.Cid)
    (stream : rpc.FFS_AddToHotClient) : Upload :=
  { ops := [StreamOp.CloseAndRecv], reads := 0,
    result :=
      match stream.CloseAndRecv with
      | (_, some err) => Outcome.returned (none, some err)
      | (reply, none) =>
        match cidDecode (rpc.AddToHotReply.GetCid reply) with
        | Except.error err => Outcome.returned (none, some err)
        | Except.ok c => Outcome.returned (some c, none) }

/-- The read/send loop of `AddToHot` (ffs.go 372-388) followed by its tail, run against the
script of `Read` results; `i` counts the `Send` calls made so far. -/
def AddToHot.loop (cidDecode : String → Except Error cid.Cid)
    (stream : rpc.FFS_AddToHotClient) : Nat → List ReadResult → Upload
  | _, [] => { ops := [], reads := 0, result := Outcome.waiting }
  | i, rd :: rest =>
    if rd.err ≠ none ∧ rd.err ≠ some Error.EOF then
      { ops := [], reads := 1, result := Outcome.returned (none, rd.err) }
    else if bufferLen < rd.data.length then
      { ops := [], reads := 1, result := Outcome.faulted }
    else
      match stream.Send i with
      | some sendErr =>
        if sendErr = Error.EOF then
          { ops := [StreamOp.Send rd.data, StreamOp.RecvMsg], reads := 1,
            result := Outcome.returned (none, stream.RecvMsg) }
        else
          { ops := [StreamOp.Send rd.data], reads := 1,
            result := Outcome.returned (none, some sendErr) }
      | none =>
        if rd.err = some Error.EOF then
          Upload.after rd.data (AddToHot.finish cidDecode stream)
        else
          Upload.after rd.data (AddToHot.loop cidDecode stream (i + 1) rest)

/-- `AddToHot` (ffs.go 365-399): `opened` is the result of `f.client.AddToHot(ctx)`, `data` the
script of the results of successive `data.Read(buffer)` calls. -/
def AddToHot (cidDecode : String → Except Error cid.Cid)
    (opened : Except Error rpc.FFS_AddToHotClient) (data : List ReadResult) : Upload :=
  match opened with
  | Except.error err => { ops := [], reads := 0, result := Outcome.returned (none, some err) }
  | Except.ok stream => AddToHot.loop cidDecode stream 0 data

/-- A stream on which every `Send` succeeds. -/
def rpc.FFS_AddToHotClient.accepting (stream : rpc.FFS_AddToHotClient) : Prop :=
  ∀ i, stream.Send i = none

/-- Number of bytes a script of reads delivers. -/
def sourceLen (data : List ReadResult) : Nat :=
  (data.map fun rd => rd.data.length).sum

/-- Byte content a script of reads delivers. -/
def sourceBytes (data : List ReadResult) : List byte :=
  (data.map fun rd => rd.data).flatten

/-- A byte source read without error, within the `io.Reader` contract: every `Read` returns at
most `bufferLen` bytes, the last one returns `io.EOF`, and the earlier ones return no error. -/
def ReadsToEOF (data : List ReadResult) : Prop :=
  ∃ body last, data = body ++ [last] ∧ last.err = some Error.EOF ∧
    last.data.length ≤ bufferLen ∧
    ∀ rd ∈ body, rd.err = none ∧ rd.data.length ≤ bufferLen

/-! ## Storage configuration: `ff` values and `rpc` messages -/

/-- Two's complement wrap of an integer to `w` bits, signed. -/
def wrapSigned (w : Nat) (x : Int) : Int :=
  (x + 2 ^ (w - 1)) % 2 ^ w - 2 ^ (w - 1)

/-- The Go conversion `int64(x)`. -/
def toInt64 (x : Int) : Int := wrapSigned 64 x

/-- The Go conversion `int(x)`, for a 64 bit `int`. -/
def toInt (x : Int) : Int := wrapSigned 64 x

/-- The values of a signed 64 bit integer. -/
def InInt64 (x : Int) : Prop := -(2 : Int) ^ 63 ≤ x ∧ x < (2 : Int) ^ 63

/-- `ff.IpfsConfig`. -/
structure ff.IpfsConfig where
  AddTimeout : Int := 0
  deriving DecidableEq, Repr

/-- `ff.HotConfig`. -/
structure ff.HotConfig where
  Enabled : Bool := false
  AllowUnfreeze : Bool := false
  Ipfs : ff.IpfsConfig := {}
  deriving DecidableEq, Repr

/-- `ff.FilRenew`. -/
structure ff.FilRenew where
  Enabled : Bool := false
  Threshold : Int := 0
  deriving DecidableEq, Repr

/-- `ff.FilConfig`; `DealDuration` is an `int64`, the other integers are `int`. -/
structure ff.FilConfig where
  RepFactor : Int := 0
  DealDuration : Int := 0
  ExcludedMiners : List String := []
  TrustedMiners : List String := []
  CountryCodes : List String := []
  Renew : ff.FilRenew := {}
  Addr : String := ""
  deriving DecidableEq, Repr

/-- `ff.ColdConfig`. -/
structure ff.ColdConfig where
  Enabled : Bool := false
  Filecoin : ff.FilConfig := {}
  deriving DecidableEq, Repr

/-- `ff.DefaultConfig`. -/
structure ff.DefaultConfig where
  Hot : ff.HotConfig := {}
  Cold : ff.ColdConfig := {}
  deriving DecidableEq, Repr

/-- `ff.CidConfig`. -/
structure ff.CidConfig where
  Cid : cid.Cid := {}
  Hot : ff.HotConfig := {}
  Cold : ff.ColdConfig := {}
  deriving DecidableEq, Repr

/-- The values of `ff.DefaultConfig`: every integer field is within its Go type. -/
def ff.DefaultConfig.InRange (cfg : ff.DefaultConfig) : Prop :=
  InInt64 cfg.Hot.Ipfs.AddTimeout ∧ InInt64 cfg.Cold.Filecoin.RepFactor ∧
    InInt64 cfg.Cold.Filecoin.DealDuration ∧ InInt64 cfg.Cold.Filecoin.Renew.Threshold

/-- `rpc.IpfsConfig`. -/
structure rpc.IpfsConfig where
  AddTimeout : Int := 0
  deriving DecidableEq, Repr

/-- `rpc.HotConfig`; `Ipfs` is a pointer field. -/
structure rpc.HotConfig where
  Enabled : Bool := false
  AllowUnfreeze : Bool := false
  Ipfs : Option rpc.IpfsConfig := none
  deriving DecidableEq, Repr

/-- `rpc.FilRenew`. -/
structure rpc.FilRenew where
  Enabled : Bool := false
  Threshold : Int := 0
  deriving DecidableEq, Repr

/-- `rpc.FilConfig`; `Renew` is a pointer field. -/
structure rpc.FilConfig where
  RepFactor : Int := 0
  DealDuration : Int := 0
  ExcludedMiners : List String := []
  TrustedMiners : List String := []
  CountryCodes : List String := []
  Renew : Option rpc.FilRenew := none
  Addr : String := ""
  deriving DecidableEq, Repr

/-- `rpc.ColdConfig`; `Filecoin` is a pointer field. -/
structure rpc.ColdConfig where
  Enabled : Bool := false
  Filecoin : Option rpc.FilConfig := none
  deriving DecidableEq, Repr

/-- `rpc.DefaultConfig`; both fields are pointers. -/
structure rpc.DefaultConfig where
  Hot : Option rpc.HotConfig := none
  Cold : Option rpc.ColdConfig := none
  deriving DecidableEq, Repr

/-- `rpc.CidConfig`; `Hot` and `Cold` are pointers. -/
structure rpc.CidConfig where
  Cid : String := ""
  Hot : Option rpc.HotConfig := none
  Cold : Option rpc.ColdConfig := none
  deriving DecidableEq, Repr

/-- `rpc.DefaultConfigReply`. -/
structure rpc.DefaultConfigReply where
  DefaultConfig : Option rpc.DefaultConfig := none
  deriving DecidableEq, Repr

/-- `rpc.SetDefaultConfigRequest`. -/
structure rpc.SetDefaultConfigRequest where
  Config : Option rpc.DefaultConfig := none
  deriving DecidableEq, Repr

/-- `toRPCHotConfig` (ffs.go 401-409). -/
def toRPCHotConfig (config : ff.HotConfig) : Option rpc.HotConfig :=
  some {
    Enabled := config.Enabled
    AllowUnfreeze := config.AllowUnfreeze
    Ipfs := some { AddTimeout := toInt64 config.Ipfs.AddTimeout } }

/-- `toRPCColdConfig` (ffs.go 411-427). -/
def toRPCColdConfig (config : ff.ColdConfig) : Option rpc.ColdConfig :=
  some {
    Enabled := config.Enabled
    Filecoin := some {
      RepFactor := toInt64 config.Filecoin.RepFactor
      DealDuration := toInt64 config.Filecoin.DealDuration
      ExcludedMiners := config.Filecoin.ExcludedMiners
      TrustedMiners := config.Filecoin.TrustedMiners
      CountryCodes := config.Filecoin.CountryCodes
      Renew := some {
        Enabled := config.Filecoin.Renew.Enabled
        Threshold := toInt64 config.Filecoin.Renew.Threshold }
      Addr := config.Filecoin.Addr } }

/-- The request `SetDefaultConfig` builds (ffs.go 174-179). -/
def SetDefaultConfig.request (config : ff.DefaultConfig) : rpc.SetDefaultConfigRequest :=
  { Config := some { Hot := toRPCHotConfig config.Hot, Cold := toRPCColdConfig config.Cold } }

/-- `SetDefaultConfig` (ffs.go 173-182): `client` is `f.client.SetDefaultConfig`. -/
def SetDefaultConfig (client : rpc.SetDefaultConfigRequest → Option Error)
    (config : ff.DefaultConfig) : Option Error :=
  client (SetDefaultConfig.request config)

/-- `DefaultConfig` (ffs.go 121-150): `(resp, err)` is the result of `f.client.DefaultConfig`. -/
def DefaultConfig (result : Option rpc.DefaultConfigReply × Option Error) :
    Outcome (ff.DefaultConfig × Option Error) :=
  match result with
  | (_, some err) => Outcome.returned ({}, some err)
  | (resp, none) => do
    let resp ← deref resp
    let dc ← deref resp.DefaultConfig
    let hot ← deref dc.Hot
    let ipfs ← deref hot.Ipfs
    let cold ← deref dc.Cold
    let fil ← deref cold.Filecoin
    let renew ← deref fil.Renew
    Outcome.returned
      ({ Hot := {
           Enabled := hot.Enabled
           AllowUnfreeze := hot.AllowUnfreeze
           Ipfs := { AddTimeout := toInt ipfs.AddTimeout } }
         Cold := {
           Enabled := cold.Enabled
           Filecoin := {
             RepFactor := toInt fil.RepFactor
             DealDuration := fil.DealDuration
             ExcludedMiners := fil.ExcludedMiners
             CountryCodes := fil.CountryCodes
             TrustedMiners := fil.TrustedMiners
             Renew := { Enabled := renew.Enabled, Threshold := toInt renew.Threshold }
             Addr := fil.Addr } } }, none)

/-! ## Request building and one-shot calls -/

/-- `rpc.PushConfigRequest`; `Config` is a pointer field. -/
structure rpc.PushConfigRequest where
  Cid : String := ""
  Config : Option rpc.CidConfig := none
  HasConfig : Bool := false
  OverrideConfig : Bool := false
  HasOverrideConfig : Bool := false
  deriving DecidableEq, Repr

/-- `rpc.PushConfigReply`. -/
structure rpc.PushConfigReply where
  JobID : String := ""
  deriving DecidableEq, Repr

/-- `PushConfigOption`: a function that mutates the request it is given. -/
abbrev PushConfigOption := rpc.PushConfigRequest → rpc.PushConfigRequest

/-- `WithCidConfig` (ffs.go 48-57); `cidString` is `cid.Cid.String`. -/
def WithCidConfig (cidString : cid.Cid → String) (c : ff.CidConfig) : PushConfigOption :=
  fun r =>
    { r with
      HasConfig := true
      Config := some {
        Cid := cidString c.Cid
        Hot := toRPCHotConfig c.Hot
        Cold := toRPCColdConfig c.Cold } }

/-- `WithOverride` (ffs.go 61-66). -/
def WithOverride (override : Bool) : PushConfigOption :=
  fun r => { r with HasOverrideConfig := true, OverrideConfig := override }

/-- The request `PushConfig` builds (ffs.go 253-256): the options are applied in order to the
request that carries only the address. -/
def PushConfig.request (cidString : cid.Cid → String) (c : cid.Cid)
    (opts : List PushConfigOption) : rpc.PushConfigRequest :=
  opts.foldl (fun req opt => opt req) { Cid := cidString c }

/-- `PushConfig` (ffs.go 252-264): `client` is `f.client.PushConfig`. -/
def PushConfig (cidString : cid.Cid → String)
    (client : rpc.PushConfigRequest → Option rpc.PushConfigReply × Option Error)
    (c : cid.Cid) (opts : List PushConfigOption) : Outcome (ff.JobID × Option Error) :=
  match client (PushConfig.request cidString c opts) with
  | (_, some err) => Outcome.returned (ff.EmptyJobID, some err)
  | (resp, none) => do
    let resp ← deref resp
    Outcome.returned (resp.JobID, none)

/-- `rpc.ReplaceRequest`. -/
structure rpc.ReplaceRequest where
  Cid1 : String := ""
  Cid2 : String := ""
  deriving DecidableEq, Repr

/-- `rpc.ReplaceReply`. -/
structure rpc.ReplaceReply where
  JobID : String := ""
  deriving DecidableEq, Repr

/-- `Replace` (ffs.go 243-249): `client` is `f.client.Replace`. -/
def Replace (cidString : cid.Cid → String)
    (client : rpc.ReplaceRequest → Option rpc.ReplaceReply × Option Error)
    (c1 c2 : cid.Cid) : Outcome (ff.JobID × Option Error) :=
  match client { Cid1 := cidString c1, Cid2 := cidString c2 } with
  | (_, some err) => Outcome.returned (ff.EmptyJobID, some err)
  | (resp, none) => do
    let resp ← deref resp
    Outcome.returned (resp.JobID, none)

/-- `rpc.NewAddrRequest`. -/
structure rpc.NewAddrRequest where
  Name : String := ""
  AddressType : String := ""
  MakeDefault : Bool := false
  deriving DecidableEq, Repr

/-- `rpc.NewAddrReply`. -/
structure rpc.NewAddrReply where
  Addr : String := ""
  deriving DecidableEq, Repr

/-- `NewAddressOption`: a function that mutates the request it is given. -/
abbrev NewAddressOption := rpc.NewAddrRequest → rpc.NewAddrRequest

/-- `WithMakeDefault` (ffs.go 31-35). -/
def WithMakeDefault (makeDefault : Bool) : NewAddressOption :=
  fun r => { r with MakeDefault := makeDefault }

/-- `WithAddressType` (ffs.go 38-42). -/
def WithAddressType (addressType : String) : NewAddressOption :=
  fun r => { r with AddressType := addressType }

/-- `NewAddr` (ffs.go 153-160): `client` is `f.client.NewAddr`. The field `resp.Addr` is read
before the error is looked at. -/
def NewAddr (client : rpc.NewAddrRequest → Option rpc.NewAddrReply × Option Error)
    (name : String) (options : List NewAddressOption) : Outcome (String × Option Error) :=
  match client (options.foldl (fun r opt => opt r) { Name := name }) with
  | (resp, err) => do
    let resp ← deref resp
    Outcome.returned (resp.Addr, err)

/-- A unary gRPC call that fails: the generated client returns a nil response and the error. -/
def failingCall {Req Resp : Type} (err : Error) : Req → Option Resp × Option Error :=
  fun _ => (none, some err)

/-- A toy `cid.Cid.String` for concrete evaluation. -/
def sampleString (c : cid.Cid) : String := c.str

/-! ## Vocabulary of the stream adapter contract -/

/-- The events sent on the channel, in order. -/
def ChanOp.events {ε : Type} (ops : List (ChanOp ε)) : List ε :=
  ops.filterMap fun op =>
    match op with
    | ChanOp.send ev => some ev
    | ChanOp.close => none

/-- The number of `close(ch)` operations. -/
def ChanOp.closes {ε : Type} (ops : List (ChanOp ε)) : Nat :=
  (ops.filter fun op =>
    match op with
    | ChanOp.close => true
    | ChanOp.send _ => false).length

/-- A `Recv` result that delivers the job message `j`. -/
def jobMessage (j : rpc.Job) : Option rpc.WatchJobsReply × Option Error :=
  (some { Job := some j }, none)

/-- A `Recv` result that delivers the log message `l`. -/
def logMessage (l : rpc.LogEntry) : Option rpc.WatchLogsReply × Option Error :=
  (some { LogEntry := some l }, none)

/-- The non-error event of the job message `j` whose address decodes to `c`. -/
def expectedJobEvent (j : rpc.Job) (c : cid.Cid) : JobEvent :=
  { Job := { ID := j.ID, APIID := j.ApiID, Cid := c, Status := j.Status, ErrCause := j.ErrCause },
    Err := none }

/-- The non-error event of the log message `l` whose address decodes to `c`. -/
def expectedLogEvent (l : rpc.LogEntry) (c : cid.Cid) : LogEvent :=
  { LogEntry := { Cid := c, Timestamp := { sec := l.Time, nsec := 0 }, Jid := l.Jid,
                  Msg := l.Msg },
    Err := none }

/-- A `Recv` result ends the stream cleanly: `io.EOF` or an error whose status code is
`Canceled`. -/
def CleanEnd (err : Error) : Prop :=
  err = Error.EOF ∨ status.Code (some err) = codes.Canceled

/-- The `Recv` result `x` is a failure of the job stream with cause `cause`: an error that is not
a clean end, or a message whose address does not decode. -/
def JobFailure (cidDecode : String → Except Error cid.Cid)
    (x : Option rpc.WatchJobsReply × Option Error) (cause : Error) : Prop :=
  (x.2 = some cause ∧ ¬ CleanEnd cause) ∨
    ∃ j, x = jobMessage j ∧ cidDecode j.Cid = Except.error cause

/-- The `Recv` result `x` is a failure of the log stream with cause `cause`. -/
def LogFailure (cidDecode : String → Except Error cid.Cid)
    (x : Option rpc.WatchLogsReply × Option Error) (cause : Error) : Prop :=
  (x.2 = some cause ∧ ¬ CleanEnd cause) ∨
    ∃ l, x = logMessage l ∧ cidDecode l.Cid = Except.error cause

/-- Every event with `Err` set is directly followed by the close of the channel, which ends the
trace. -/
def ErrThenClose {ε : Type} (err : ε → Option Error) (ops : List (ChanOp ε)) : Prop :=
  ∀ front ev back, ops = front ++ ChanOp.send ev :: back → err ev ≠ none →
    back = [ChanOp.close]

/-- The number of events with `Err` set. -/
def errCount {ε : Type} (err : ε → Option Error) (ops : List (ChanOp ε)) : Nat :=
  ((ChanOp.events ops).filter fun ev => (err ev).isSome).length

/-- A script of `Recv` results: the messages of `jobs`, then `x`, then `rest`. -/
def jobStream (jobs : List (rpc.Job × cid.Cid)) (x : Option rpc.WatchJobsReply × Option Error)
    (rest : List (Option rpc.WatchJobsReply × Option Error)) :
    List (Option rpc.WatchJobsReply × Option Error) :=
  jobs.map (fun p => jobMessage p.1) ++ x :: rest

/-- A script of `Recv` results: the messages of `logs`, then `x`, then `rest`. -/
def logStream (logs : List (rpc.LogEntry × cid.Cid)) (x : Option rpc.WatchLogsReply × Option Error)
    (rest : List (Option rpc.WatchLogsReply × Option Error)) :
    List (Option rpc.WatchLogsReply × Option Error) :=
  logs.map (fun p => logMessage p.1) ++ x :: rest

/-- The frame count in the words of the spec: `max(1, ceil(len / 32768))`. -/
def framesExpected (len : Nat) : Nat :=
  max 1 ((len + (bufferLen - 1)) / bufferLen)

/-- A toy `cid.Decode` for concrete evaluation: the empty string is malformed. -/
def sampleDecode (s : String) : Except Error cid.Cid :=
  if s = "" then Except.error (Error.other "invalid cid") else Except.ok { str := s }

/-- Two job updates with their decoded addresses, for concrete evaluation. -/
def sampleJobs : List (rpc.Job × cid.Cid) :=
  [({ ID := "job-1", ApiID := "inst", Cid := "Qm1", Status := 2, ErrCause := "" },
    { str := "Qm1" }),
   ({ ID := "job-1", ApiID := "inst", Cid := "Qm1", Status := 5, ErrCause := "" },
    { str := "Qm1" })]

/-- Two log lines with their decoded addresses, for concrete evaluation. -/
def sampleLogs : List (rpc.LogEntry × cid.Cid) :=
  [({ Cid := "Qm1", Jid := "job-1", Time := 1600000000, Msg := "pushing" }, { str := "Qm1" }),
   ({ Cid := "Qm1", Jid := "job-1", Time := 1600000007, Msg := "done" }, { str := "Qm1" })]

/-- An upload stream that accepts every frame and answers with the address `Qm1`. -/
def acceptingStream : rpc.FFS_AddToHotClient :=
  { Send := fun _ => none, RecvMsg := none, CloseAndRecv := (some { Cid := "Qm1" }, none) }

/-- An upload stream that the server terminated before the second frame: the second `Send` is
rejected with `io.EOF` and `RecvMsg` reports the status of the server. -/
def closedStream : rpc.FFS_AddToHotClient :=
  { Send := fun i => if i = 1 then some Error.EOF else none
    RecvMsg := some (Error.grpc 3 "invalid argument")
    CloseAndRecv := (none, some (Error.grpc 3 "invalid argument")) }

/-- A one byte source read the way `bytes.Reader` behaves: the byte first, then `(0, io.EOF)`. -/
def lazySource : List ReadResult :=
  [{ data := [7], err := none }, { data := [], err := some Error.EOF }]

/-- A storage policy with distinct miner lists, for concrete evaluation. -/
def sampleConfig : ff.DefaultConfig :=
  { Hot := { Enabled := true, AllowUnfreeze := false, Ipfs := { AddTimeout := 30 } }
    Cold := {
      Enabled := true
      Filecoin := {
        RepFactor := 2
        DealDuration := 1000
        ExcludedMiners := ["t01000"]
        TrustedMiners := ["t02000", "t03000"]
        CountryCodes := ["UY"]
        Renew := { Enabled := true, Threshold := 100 }
        Addr := "t3abc" } } }

/-! ## The forwarding loops -/

theorem watchJobs_loop_message (cidDecode : String → Except Error cid.Cid)
    (j : rpc.Job) (c : cid.Cid) (h : cidDecode j.Cid = Except.ok c)
    (rest : List (Option rpc.WatchJobsReply × Option Error)) :
    WatchJobs.loop cidDecode (jobMessage j :: rest) =
      Forwarding.after (expectedJobEvent j c) (WatchJobs.loop cidDecode rest) := by
  simp [jobMessage, WatchJobs.loop, status.Code, codes.OK, codes.Canceled, h, expectedJobEvent]

theorem watchJobs_loop_forwards (cidDecode : String → Except Error cid.Cid)
    (jobs : List (rpc.Job × cid.Cid))
    (hjobs : ∀ p ∈ jobs, cidDecode p.1.Cid = Except.ok p.2)
    (tail : List (Option rpc.WatchJobsReply × Option Error)) :
    WatchJobs.loop cidDecode (jobs.map (fun p => jobMessage p.1) ++ tail) =
      { ops := jobs.map (fun p => ChanOp.send (expectedJobEvent p.1 p.2)) ++
          (WatchJobs.loop cidDecode tail).ops
        recvs := jobs.length + (WatchJobs.loop cidDecode tail).recvs
        ending := (WatchJobs.loop cidDecode tail).ending } := by
  induction jobs with
  | nil => simp
  | cons p ps ih =>
    have hp := hjobs p (List.mem_cons_self _ _)
    have ih2 := ih (fun q hq => hjobs q (List.mem_cons_of_mem _ hq))
    rw [List.map_cons, List.cons_append, watchJobs_loop_message cidDecode p.1 p.2 hp, ih2]
    simp [Forwarding.after]
    omega

theorem watchLogs_loop_message (cidDecode : String → Except Error cid.Cid)
    (l : rpc.LogEntry) (c : cid.Cid) (h : cidDecode l.Cid = Except.ok c)
    (rest : List (Option rpc.WatchLogsReply × Option Error)) :
    WatchLogs.loop cidDecode (logMessage l :: rest) =
      Forwarding.after (expectedLogEvent l c) (WatchLogs.loop cidDecode rest) := by
  simp [logMessage, WatchLogs.loop, status.Code, codes.OK, codes.Canceled, h, expectedLogEvent,
    time.Unix]

theorem watchLogs_loop_forwards (cidDecode : String → Except Error cid.Cid)
    (logs : List (rpc.LogEntry × cid.Cid))
    (hlogs : ∀ p ∈ logs, cidDecode p.1.Cid = Except.ok p.2)
    (tail : List (Option rpc.WatchLogsReply × Option Error)) :
    WatchLogs.loop cidDecode (logs.map (fun p => logMessage p.1) ++ tail) =
      { ops := logs.map (fun p => ChanOp.send (expectedLogEvent p.1 p.2)) ++
          (WatchLogs.loop cidDecode tail).ops
        recvs := logs.length + (WatchLogs.loop cidDecode tail).recvs
        ending := (WatchLogs.loop cidDecode tail).ending } := by
  induction logs with
  | nil => simp
  | cons p ps ih =>
    have hp := hlogs p (List.mem_cons_self _ _)
    have ih2 := ih (fun q hq => hlogs q (List.mem_cons_of_mem _ hq))
    rw [List.map_cons, List.cons_append, watchLogs_loop_message cidDecode p.1 p.2 hp, ih2]
    simp [Forwarding.after]
    omega

theorem watchJobs_loop_clean (cidDecode : String → Except Error cid.Cid)
    (reply : Option rpc.WatchJobsReply) (term : Error) (hterm : CleanEnd term)
    (rest : List (Option rpc.WatchJobsReply × Option Error)) :
    WatchJobs.loop cidDecode ((reply, some term) :: rest) =
      { ops := [ChanOp.close], recvs := 1, ending := Ending.exited } := by
  rcases hterm with h | h
  · simp [WatchJobs.loop, h]
  · simp [WatchJobs.loop, h]

theorem watchLogs_loop_clean (cidDecode : String → Except Error cid.Cid)
    (reply : Option rpc.WatchLogsReply) (term : Error) (hterm : CleanEnd term)
    (rest : List (Option rpc.WatchLogsReply × Option Error)) :
    WatchLogs.loop cidDecode ((reply, some term) :: rest) =
      { ops := [ChanOp.close], recvs := 1, ending := Ending.exited } := by
  rcases hterm with h | h
  · simp [WatchLogs.loop, h]
  · simp [WatchLogs.loop, h]

theorem watchJobs_loop_failure (cidDecode : String → Except Error cid.Cid)
    (x : Option rpc.WatchJobsReply × Option Error) (cause : Error)
    (hfail : JobFailure cidDecode x cause)
    (rest : List (Option rpc.WatchJobsReply × Option Error)) :
    WatchJobs.loop cidDecode (x :: rest) =
      { ops := [ChanOp.send { Err := some cause }, ChanOp.close], recvs := 1,
        ending := Ending.exited } := by
  rcases hfail with ⟨hx, hnot⟩ | ⟨j, hx, hdec⟩
  · obtain ⟨reply, err⟩ := x
    simp only at hx
    subst hx
    simp only [CleanEnd, not_or] at hnot
    simp [WatchJobs.loop, hnot.1, hnot.2]
  · subst hx
    simp [jobMessage, WatchJobs.loop, status.Code, codes.OK, codes.Canceled, hdec]

theorem watchLogs_loop_failure (cidDecode : String → Except Error cid.Cid)
    (x : Option rpc.WatchLogsReply × Option Error) (cause : Error)
    (hfail : LogFailure cidDecode x cause)
    (rest : List (Option rpc.WatchLogsReply × Option Error)) :
    WatchLogs.loop cidDecode (x :: rest) =
      { ops := [ChanOp.send { Err := some cause }, ChanOp.close], recvs := 1,
        ending := Ending.exited } := by
  rcases hfail with ⟨hx, hnot⟩ | ⟨l, hx, hdec⟩
  · obtain ⟨reply, err⟩ := x
    simp only at hx
    subst hx
    simp only [CleanEnd, not_or] at hnot
    simp [WatchLogs.loop, hnot.1, hnot.2]
  · subst hx
    simp [logMessage, WatchLogs.loop, status.Code, codes.OK, codes.Canceled, hdec]

/-! ### Traces of the shape `send … send` followed by a tail -/

theorem ChanOp.events_sends {ε : Type} (evs : List ε) (tail : List (ChanOp ε)) :
    ChanOp.events (evs.map ChanOp.send ++ tail) = evs ++ ChanOp.events tail := by
  induction evs with
  | nil => simp
  | cons e es ih =>
    simp only [ChanOp.events] at ih
    simp [ChanOp.events, ih]

theorem ChanOp.closes_sends {ε : Type} (evs : List ε) (tail : List (ChanOp ε)) :
    ChanOp.closes (evs.map ChanOp.send ++ tail) = ChanOp.closes tail := by
  induction evs with
  | nil => simp
  | cons e es ih =>
    simp only [ChanOp.closes] at ih
    simp [ChanOp.closes, ih]

theorem errThenClose_of_shape {ε : Type} (err : ε → Option Error) (goods : List ε)
    (tail : List (ChanOp ε)) (hgood : ∀ ev ∈ goods, err ev = none)
    (htail : tail = [] ∨ tail = [ChanOp.close] ∨ ∃ ev, tail = [ChanOp.send ev, ChanOp.close]) :
    ErrThenClose err (goods.map ChanOp.send ++ tail) := by
  induction goods with
  | nil =>
    intro front ev back hops herr
    rcases htail with h | h | ⟨ev0, h⟩
    · subst h
      simp at hops
    · subst h
      cases front with
      | nil => simp at hops
      | cons a f => simp at hops
    · subst h
      cases front with
      | nil =>
        simp at hops
        exact hops.2.symm
      | cons a f =>
        cases f with
        | nil => simp at hops
        | cons b f2 => simp at hops
  | cons g gs ih =>
    intro front ev back hops herr
    cases front with
    | nil =>
      simp at hops
      have := hgood g (List.mem_cons_self _ _)
      rw [hops.1] at this
      exact absurd this herr
    | cons a f =>
      simp at hops
      exact ih (fun e he => hgood e (List.mem_cons_of_mem _ he)) f ev back hops.2 herr

theorem errCount_of_shape {ε : Type} (err : ε → Option Error) (goods : List ε)
    (tail : List (ChanOp ε)) (hgood : ∀ ev ∈ goods, err ev = none)
    (htail : tail = [] ∨ tail = [ChanOp.close] ∨ ∃ ev, tail = [ChanOp.send ev, ChanOp.close]) :
    errCount err (goods.map ChanOp.send ++ tail) ≤ 1 := by
  have hzero : (goods.filter fun ev => (err ev).isSome) = [] := by
    rw [List.filter_eq_nil_iff]
    intro ev hev
    simp [hgood ev hev]
  rw [errCount, ChanOp.events_sends, List.filter_append, hzero]
  rcases htail with h | h | ⟨ev0, h⟩
  · subst h
    simp [ChanOp.events]
  · subst h
    simp [ChanOp.events]
  · subst h
    simp only [ChanOp.events, List.filterMap_cons, List.filterMap_nil, List.nil_append]
    exact List.length_filter_le _ _

theorem watchJobs_loop_shape (cidDecode : String → Except Error cid.Cid)
    (s : List (Option rpc.WatchJobsReply × Option Error)) :
    ∃ (goods : List JobEvent) (tail : List (ChanOp JobEvent)),
      (WatchJobs.loop cidDecode s).ops = goods.map ChanOp.send ++ tail ∧
      (∀ ev ∈ goods, JobEvent.Err ev = none) ∧
      (tail = [] ∨ tail = [ChanOp.close] ∨ ∃ ev, tail = [ChanOp.send ev, ChanOp.close]) := by
  induction s with
  | nil => exact ⟨[], [], by simp [WatchJobs.loop], by simp, Or.inl rfl⟩
  | cons x rest ih =>
    obtain ⟨reply, err⟩ := x
    obtain ⟨goods, tail, hops, hgood, htail⟩ := ih
    by_cases hc : err = some Error.EOF ∨ status.Code err = codes.Canceled
    · exact ⟨[], [ChanOp.close], by simp [WatchJobs.loop, hc], by simp, Or.inr (Or.inl rfl)⟩
    · cases err with
      | some e =>
        exact ⟨[], [ChanOp.send { Err := some e }, ChanOp.close], by rw [WatchJobs.loop, if_neg hc]; rfl,
          by simp, Or.inr (Or.inr ⟨_, rfl⟩)⟩
      | none =>
        cases reply with
        | none => exact ⟨[], [], by rw [WatchJobs.loop, if_neg hc]; rfl, by simp, Or.inl rfl⟩
        | some r =>
          cases hj : r.Job with
          | none => exact ⟨[], [], by rw [WatchJobs.loop, if_neg hc]; simp [hj], by simp, Or.inl rfl⟩
          | some j =>
            cases hd : cidDecode j.Cid with
            | error e =>
              exact ⟨[], [ChanOp.send { Err := some e }, ChanOp.close],
                by rw [WatchJobs.loop, if_neg hc]; simp [hj, hd], by simp, Or.inr (Or.inr ⟨_, rfl⟩)⟩
            | ok c =>
              refine ⟨expectedJobEvent j c :: goods, tail, ?_, ?_, htail⟩
              · rw [WatchJobs.loop, if_neg hc]
                simp [hj, hd, Forwarding.after, hops, expectedJobEvent, time.Unix]
              · intro ev hev
                rcases List.mem_cons.mp hev with h | h
                · rw [h]
                  rfl
                · exact hgood ev h

theorem watchLogs_loop_shape (cidDecode : String → Except Error cid.Cid)
    (s : List (Option rpc.WatchLogsReply × Option Error)) :
    ∃ (goods : List LogEvent) (tail : List (ChanOp LogEvent)),
      (WatchLogs.loop cidDecode s).ops = goods.map ChanOp.send ++ tail ∧
      (∀ ev ∈ goods, LogEvent.Err ev = none) ∧
      (tail = [] ∨ tail = [ChanOp.close] ∨ ∃ ev, tail = [ChanOp.send ev, ChanOp.close]) := by
  induction s with
  | nil => exact ⟨[], [], by simp [WatchLogs.loop], by simp, Or.inl rfl⟩
  | cons x rest ih =>
    obtain ⟨reply, err⟩ := x
    obtain ⟨goods, tail, hops, hgood, htail⟩ := ih
    by_cases hc : err = some Error.EOF ∨ status.Code err = codes.Canceled
    · exact ⟨[], [ChanOp.close], by simp [WatchLogs.loop, hc], by simp, Or.inr (Or.inl rfl)⟩
    · cases err with
      | some e =>
        exact ⟨[], [ChanOp.send { Err := some e }, ChanOp.close], by rw [WatchLogs.loop, if_neg hc]; rfl,
          by simp, Or.inr (Or.inr ⟨_, rfl⟩)⟩
      | none =>
        cases reply with
        | none => exact ⟨[], [], by rw [WatchLogs.loop, if_neg hc]; rfl, by simp, Or.inl rfl⟩
        | some r =>
          cases hj : r.LogEntry with
          | none => exact ⟨[], [], by rw [WatchLogs.loop, if_neg hc]; simp [hj], by simp, Or.inl rfl⟩
          | some l =>
            cases hd : cidDecode l.Cid with
            | error e =>
              exact ⟨[], [ChanOp.send { Err := some e }, ChanOp.close],
                by rw [WatchLogs.loop, if_neg hc]; simp [hj, hd], by simp, Or.inr (Or.inr ⟨_, rfl⟩)⟩
            | ok c =>
              refine ⟨expectedLogEvent l c :: goods, tail, ?_, ?_, htail⟩
              · rw [WatchLogs.loop, if_neg hc]
                simp [hj, hd, Forwarding.after, hops, expectedLogEvent, time.Unix]
              · intro ev hev
                rcases List.mem_cons.mp hev with h | h
                · rw [h]
                  rfl
                · exact hgood ev h

/-! ## Contract of the event stream adapter -/

/-- C1: on a stream that delivers the messages `jobs` (resp. `logs`), each with an address that
decodes, and whose next `Recv` result is `io.EOF` or an error with status code `Canceled`, the
forwarding loop of `WatchJobs` (resp. `WatchLogs`) sends exactly the non-error events decoded
from those messages, in order, sends no event with `Err` set, closes the channel exactly once
as its last operation, and exits. -/
theorem watch_clean_end_forwards_all (cidDecode : String → Except Error cid.Cid)
    (jobs : List (rpc.Job × cid.Cid)) (logs : List (rpc.LogEntry × cid.Cid))
    (hjobs : ∀ p ∈ jobs, cidDecode p.1.Cid = Except.ok p.2)
    (hlogs : ∀ p ∈ logs, cidDecode p.1.Cid = Except.ok p.2)
    (term : Error) (hterm : CleanEnd term)
    (jreply : Option rpc.WatchJobsReply)
    (jrest : List (Option rpc.WatchJobsReply × Option Error))
    (lreply : Option rpc.WatchLogsReply)
    (lrest : List (Option rpc.WatchLogsReply × Option Error)) :
    ((WatchJobs.loop cidDecode (jobStream jobs (jreply, some term) jrest)).ops =
        jobs.map (fun p => ChanOp.send (expectedJobEvent p.1 p.2)) ++ [ChanOp.close] ∧
      ChanOp.events (WatchJobs.loop cidDecode (jobStream jobs (jreply, some term) jrest)).ops =
        jobs.map (fun p => expectedJobEvent p.1 p.2) ∧
      (∀ ev ∈ ChanOp.events
          (WatchJobs.loop cidDecode (jobStream jobs (jreply, some term) jrest)).ops,
        ev.Err = none) ∧
      ChanOp.closes (WatchJobs.loop cidDecode (jobStream jobs (jreply, some term) jrest)).ops
        = 1 ∧
      (WatchJobs.loop cidDecode (jobStream jobs (jreply, some term) jrest)).ending
        = Ending.exited) ∧
    ((WatchLogs.loop cidDecode (logStream logs (lreply, some term) lrest)).ops =
        logs.map (fun p => ChanOp.send (expectedLogEvent p.1 p.2)) ++ [ChanOp.close] ∧
      ChanOp.events (WatchLogs.loop cidDecode (logStream logs (lreply, some term) lrest)).ops =
        logs.map (fun p => expectedLogEvent p.1 p.2) ∧
      (∀ ev ∈ ChanOp.events
          (WatchLogs.loop cidDecode (logStream logs (lreply, some term) lrest)).ops,
        ev.Err = none) ∧
      ChanOp.closes (WatchLogs.loop cidDecode (logStream logs (lreply, some term) lrest)).ops
        = 1 ∧
      (WatchLogs.loop cidDecode (logStream logs (lreply, some term) lrest)).ending
        = Ending.exited) := by
  have hj : (WatchJobs.loop cidDecode (jobStream jobs (jreply, some term) jrest)).ops =
      (jobs.map fun p => expectedJobEvent p.1 p.2).map ChanOp.send ++ [ChanOp.close] := by
    rw [jobStream, watchJobs_loop_forwards cidDecode jobs hjobs,
      watchJobs_loop_clean cidDecode jreply term hterm]
    simp
  have hl : (WatchLogs.loop cidDecode (logStream logs (lreply, some term) lrest)).ops =
      (logs.map fun p => expectedLogEvent p.1 p.2).map ChanOp.send ++ [ChanOp.close] := by
    rw [logStream, watchLogs_loop_forwards cidDecode logs hlogs,
      watchLogs_loop_clean cidDecode lreply term hterm]
    simp
  refine ⟨⟨?_, ?_, ?_, ?_, ?_⟩, ⟨?_, ?_, ?_, ?_, ?_⟩⟩
  · rw [hj, List.map_map]
    rfl
  · rw [hj, ChanOp.events_sends]
    simp [ChanOp.events]
  · rw [hj, ChanOp.events_sends]
    intro ev hev
    simp [ChanOp.events] at hev
    obtain ⟨j, c, _, rfl⟩ := hev
    rfl
  · rw [hj, ChanOp.closes_sends]
    rfl
  · rw [jobStream, watchJobs_loop_forwards cidDecode jobs hjobs,
      watchJobs_loop_clean cidDecode jreply term hterm]
  · rw [hl, List.map_map]
    rfl
  · rw [hl, ChanOp.events_sends]
    simp [ChanOp.events]
  · rw [hl, ChanOp.events_sends]
    intro ev hev
    simp [ChanOp.events] at hev
    obtain ⟨l, c, _, rfl⟩ := hev
    rfl
  · rw [hl, ChanOp.closes_sends]
    rfl
  · rw [logStream, watchLogs_loop_forwards cidDecode logs hlogs,
      watchLogs_loop_clean cidDecode lreply term hterm]

theorem sampleJobs_decode : ∀ p ∈ sampleJobs, sampleDecode p.1.Cid = Except.ok p.2 := by
  intro p hp
  simp only [sampleJobs, List.mem_cons, List.mem_singleton, List.not_mem_nil, or_false] at hp
  rcases hp with rfl | rfl <;> rfl

theorem sampleLogs_decode : ∀ p ∈ sampleLogs, sampleDecode p.1.Cid = Except.ok p.2 := by
  intro p hp
  simp only [sampleLogs, List.mem_cons, List.mem_singleton, List.not_mem_nil, or_false] at hp
  rcases hp with rfl | rfl <;> rfl

/-- Witness of C1: two job updates and two log lines followed by a cancellation. -/
theorem watch_clean_end_forwards_all_witness :
    CleanEnd (Error.grpc codes.Canceled "context canceled") ∧
    (WatchJobs.loop sampleDecode
        (jobStream sampleJobs (none, some (Error.grpc codes.Canceled "context canceled"))
          [])).ops =
      [ChanOp.send { Job := { ID := "job-1", APIID := "inst", Cid := { str := "Qm1" },
                              Status := 2 } },
       ChanOp.send { Job := { ID := "job-1", APIID := "inst", Cid := { str := "Qm1" },
                              Status := 5 } },
       ChanOp.close] ∧
    ChanOp.closes (WatchLogs.loop sampleDecode
        (logStream sampleLogs (none, some (Error.grpc codes.Canceled "context canceled"))
          [])).ops = 1 :=
  have h := watch_clean_end_forwards_all sampleDecode sampleJobs sampleLogs sampleJobs_decode
    sampleLogs_decode (Error.grpc codes.Canceled "context canceled") (Or.inr rfl) none [] none []
  ⟨Or.inr rfl, h.1.1, h.2.2.2.2.1⟩

/-- C2: on a stream whose first failure comes right after the messages `jobs` (resp. `logs`),
the failure being a `Recv` error that is neither `io.EOF` nor `Canceled` or a message whose
address does not decode, the forwarding loop of `WatchJobs` (resp. `WatchLogs`) sends the
non-error events of the earlier messages in order, then exactly one event with `Err` set to the
cause, then closes the channel and exits; it has made no `Recv` beyond the failing one and
forwards nothing of what follows. On every stream, an event with `Err` set is directly followed
by the close that ends the trace, and at most one such event is sent. -/
theorem watch_first_failure_is_terminal (cidDecode : String → Except Error cid.Cid)
    (jobs : List (rpc.Job × cid.Cid)) (logs : List (rpc.LogEntry × cid.Cid))
    (hjobs : ∀ p ∈ jobs, cidDecode p.1.Cid = Except.ok p.2)
    (hlogs : ∀ p ∈ logs, cidDecode p.1.Cid = Except.ok p.2)
    (jx : Option rpc.WatchJobsReply × Option Error) (jcause : Error)
    (hjx : JobFailure cidDecode jx jcause)
    (jrest : List (Option rpc.WatchJobsReply × Option Error))
    (lx : Option rpc.WatchLogsReply × Option Error) (lcause : Error)
    (hlx : LogFailure cidDecode lx lcause)
    (lrest : List (Option rpc.WatchLogsReply × Option Error)) :
    (WatchJobs.loop cidDecode (jobStream jobs jx jrest) =
        { ops := jobs.map (fun p => ChanOp.send (expectedJobEvent p.1 p.2)) ++
            [ChanOp.send { Err := some jcause }, ChanOp.close]
          recvs := jobs.length + 1
          ending := Ending.exited } ∧
      ∀ s, ErrThenClose JobEvent.Err (WatchJobs.loop cidDecode s).ops ∧
        errCount JobEvent.Err (WatchJobs.loop cidDecode s).ops ≤ 1) ∧
    (WatchLogs.loop cidDecode (logStream logs lx lrest) =
        { ops := logs.map (fun p => ChanOp.send (expectedLogEvent p.1 p.2)) ++
            [ChanOp.send { Err := some lcause }, ChanOp.close]
          recvs := logs.length + 1
          ending := Ending.exited } ∧
      ∀ s, ErrThenClose LogEvent.Err (WatchLogs.loop cidDecode s).ops ∧
        errCount LogEvent.Err (WatchLogs.loop cidDecode s).ops ≤ 1) := by
  refine ⟨⟨?_, ?_⟩, ⟨?_, ?_⟩⟩
  · rw [jobStream, watchJobs_loop_forwards cidDecode jobs hjobs,
      watchJobs_loop_failure cidDecode jx jcause hjx]
  · intro s
    obtain ⟨goods, tail, hops, hgood, htail⟩ := watchJobs_loop_shape cidDecode s
    rw [hops]
    exact ⟨errThenClose_of_shape _ goods tail hgood htail,
      errCount_of_shape _ goods tail hgood htail⟩
  · rw [logStream, watchLogs_loop_forwards cidDecode logs hlogs,
      watchLogs_loop_failure cidDecode lx lcause hlx]
  · intro s
    obtain ⟨goods, tail, hops, hgood, htail⟩ := watchLogs_loop_shape cidDecode s
    rw [hops]
    exact ⟨errThenClose_of_shape _ goods tail hgood htail,
      errCount_of_shape _ goods tail hgood htail⟩

/-- Witness of C2: a job message with a malformed address after two good ones, with a further
good message behind it, and a transport fault on the log stream. -/
theorem watch_first_failure_is_terminal_witness :
    JobFailure sampleDecode (jobMessage { ID := "job-1", Cid := "" })
      (Error.other "invalid cid") ∧
    LogFailure sampleDecode (none, some (Error.grpc 14 "unavailable"))
      (Error.grpc 14 "unavailable") ∧
    WatchJobs.loop sampleDecode
        (jobStream sampleJobs (jobMessage { ID := "job-1", Cid := "" })
          [jobMessage { ID := "job-2", Cid := "Qm2" }]) =
      { ops :=
          [ChanOp.send { Job := { ID := "job-1", APIID := "inst", Cid := { str := "Qm1" },
                                  Status := 2 } },
           ChanOp.send { Job := { ID := "job-1", APIID := "inst", Cid := { str := "Qm1" },
                                  Status := 5 } },
           ChanOp.send { Err := some (Error.other "invalid cid") },
           ChanOp.close]
        recvs := 3
        ending := Ending.exited } ∧
    (WatchLogs.loop sampleDecode
        (logStream sampleLogs (none, some (Error.grpc 14 "unavailable")) [])).recvs = 3 :=
  have hj : JobFailure sampleDecode (jobMessage { ID := "job-1", Cid := "" })
      (Error.other "invalid cid") := Or.inr ⟨_, rfl, rfl⟩
  have hl : LogFailure sampleDecode (none, some (Error.grpc 14 "unavailable"))
      (Error.grpc 14 "unavailable") :=
    Or.inl ⟨rfl, by simp [CleanEnd, status.Code, codes.Canceled]⟩
  have h := watch_first_failure_is_terminal sampleDecode sampleJobs sampleLogs sampleJobs_decode
    sampleLogs_decode _ _ hj [jobMessage { ID := "job-2", Cid := "Qm2" }] _ _ hl []
  ⟨hj, hl, h.1.1, congrArg Forwarding.recvs h.2.1⟩

/-! ## The chunked upload loop -/

theorem addToHot_loop_read (cidDecode : String → Except Error cid.Cid)
    (stream : rpc.FFS_AddToHotClient) (i : Nat) (rd : ReadResult) (rest : List ReadResult)
    (herr : rd.err = none) (hlen : rd.data.length ≤ bufferLen) (hsend : stream.Send i = none) :
    AddToHot.loop cidDecode stream i (rd :: rest) =
      Upload.after rd.data (AddToHot.loop cidDecode stream (i + 1) rest) := by
  simp [AddToHot.loop, herr, hsend, Nat.not_lt.mpr hlen]

theorem addToHot_loop_last (cidDecode : String → Except Error cid.Cid)
    (stream : rpc.FFS_AddToHotClient) (i : Nat) (rd : ReadResult) (rest : List ReadResult)
    (herr : rd.err = some Error.EOF) (hlen : rd.data.length ≤ bufferLen)
    (hsend : stream.Send i = none) :
    AddToHot.loop cidDecode stream i (rd :: rest) =
      Upload.after rd.data (AddToHot.finish cidDecode stream) := by
  simp [AddToHot.loop, herr, hsend, Nat.not_lt.mpr hlen]

theorem addToHot_loop_rejected (cidDecode : String → Except Error cid.Cid)
    (stream : rpc.FFS_AddToHotClient) (i : Nat) (rd : ReadResult) (rest : List ReadResult)
    (herr : rd.err = none ∨ rd.err = some Error.EOF) (hlen : rd.data.length ≤ bufferLen)
    (sendErr : Error) (hsend : stream.Send i = some sendErr) :
    AddToHot.loop cidDecode stream i (rd :: rest) =
      if sendErr = Error.EOF then
        { ops := [StreamOp.Send rd.data, StreamOp.RecvMsg], reads := 1,
          result := Outcome.returned (none, stream.RecvMsg) }
      else
        { ops := [StreamOp.Send rd.data], reads := 1,
          result := Outcome.returned (none, some sendErr) } := by
  rcases herr with h | h <;> simp [AddToHot.loop, h, hsend, Nat.not_lt.mpr hlen]

theorem addToHot_loop_read_error (cidDecode : String → Except Error cid.Cid)
    (stream : rpc.FFS_AddToHotClient) (i : Nat) (rd : ReadResult) (rest : List ReadResult)
    (e : Error) (herr : rd.err = some e) (hne : e ≠ Error.EOF) :
    AddToHot.loop cidDecode stream i (rd :: rest) =
      { ops := [], reads := 1, result := Outcome.returned (none, some e) } := by
  simp [AddToHot.loop, herr, hne]

theorem addToHot_loop_reads (cidDecode : String → Except Error cid.Cid)
    (stream : rpc.FFS_AddToHotClient) (body : List ReadResult) (i : Nat)
    (tail : List ReadResult)
    (hbody : ∀ rd ∈ body, rd.err = none ∧ rd.data.length ≤ bufferLen)
    (hsend : ∀ k, k < body.length → stream.Send (i + k) = none) :
    AddToHot.loop cidDecode stream i (body ++ tail) =
      { ops := body.map (fun rd => StreamOp.Send rd.data) ++
          (AddToHot.loop cidDecode stream (i + body.length) tail).ops
        reads := body.length + (AddToHot.loop cidDecode stream (i + body.length) tail).reads
        result := (AddToHot.loop cidDecode stream (i + body.length) tail).result } := by
  induction body generalizing i with
  | nil => simp
  | cons rd rds ih =>
    have hrd := hbody rd (List.mem_cons_self _ _)
    have h0 : stream.Send i = none := by
      have := hsend 0 (by simp)
      simpa using this
    have ih2 := ih (i + 1) (fun r hr => hbody r (List.mem_cons_of_mem _ hr))
      (fun k hk => by
        have := hsend (k + 1) (by simpa using hk)
        rwa [show i + 1 + k = i + (k + 1) by omega])
    rw [List.cons_append, addToHot_loop_read cidDecode stream i rd _ hrd.1 hrd.2 h0, ih2]
    simp only [Upload.after, List.map_cons, List.cons_append, List.length_cons]
    rw [show i + 1 + rds.length = i + (rds.length + 1) by omega]
    congr 1
    omega

theorem upload_frames_sends (chunks : List (List byte)) (tail : List StreamOp)
    (reads : Nat) (result : Outcome (Option cid.Cid × Option Error)) :
    Upload.frames { ops := chunks.map StreamOp.Send ++ tail, reads := reads, result := result } =
      chunks ++ Upload.frames { ops := tail, reads := reads, result := result } := by
  induction chunks with
  | nil => simp
  | cons c cs ih =>
    simp only [Upload.frames] at ih
    simp [Upload.frames, ih]

theorem upload_frames_of_reads (body : List ReadResult) (reads : Nat)
    (result : Outcome (Option cid.Cid × Option Error)) :
    Upload.frames
        { ops := body.map fun r => StreamOp.Send r.data, reads := reads, result := result } =
      body.map fun r => r.data := by
  induction body with
  | nil => rfl
  | cons b bs ih =>
    simp only [Upload.frames] at ih
    simp [Upload.frames, ih]

theorem addToHot_loop_frames_bounded (cidDecode : String → Except Error cid.Cid)
    (stream : rpc.FFS_AddToHotClient) (data : List ReadResult) (i : Nat) :
    ∀ chunk ∈ (AddToHot.loop cidDecode stream i data).frames, chunk.length ≤ bufferLen := by
  induction data generalizing i with
  | nil => simp [AddToHot.loop, Upload.frames]
  | cons rd rest ih =>
    intro chunk hchunk
    unfold AddToHot.loop at hchunk
    by_cases h1 : rd.err ≠ none ∧ rd.err ≠ some Error.EOF
    · rw [if_pos h1] at hchunk
      simp [Upload.frames] at hchunk
    · rw [if_neg h1] at hchunk
      by_cases h2 : bufferLen < rd.data.length
      · rw [if_pos h2] at hchunk
        simp [Upload.frames] at hchunk
      · rw [if_neg h2] at hchunk
        have hlen : rd.data.length ≤ bufferLen := Nat.not_lt.mp h2
        cases hS : stream.Send i with
        | some sendErr =>
          rw [hS] at hchunk
          by_cases h3 : sendErr = Error.EOF
          · simp [h3, Upload.frames] at hchunk
            rw [hchunk]
            exact hlen
          · simp [h3, Upload.frames] at hchunk
            rw [hchunk]
            exact hlen
        | none =>
          rw [hS] at hchunk
          by_cases h4 : rd.err = some Error.EOF
          · simp [h4, Upload.frames, Upload.after, AddToHot.finish] at hchunk
            rw [hchunk]
            exact hlen
          · simp only [h4, if_false, Upload.frames, Upload.after, List.filterMap_cons,
              List.mem_cons] at hchunk
            rcases hchunk with h | h
            · rw [h]
              exact hlen
            · exact ih (i + 1) chunk h

theorem addToHot_loop_complete (cidDecode : String → Except Error cid.Cid)
    (stream : rpc.FFS_AddToHotClient) (body : List ReadResult) (last : ReadResult)
    (rest : List ReadResult)
    (hbody : ∀ rd ∈ body, rd.err = none ∧ rd.data.length ≤ bufferLen)
    (hlast : last.err = some Error.EOF) (hlen : last.data.length ≤ bufferLen)
    (hsend : stream.accepting) :
    AddToHot cidDecode (Except.ok stream) (body ++ last :: rest) =
      { ops := ((body ++ [last]).map fun rd => rd.data).map StreamOp.Send ++
          [StreamOp.CloseAndRecv]
        reads := body.length + 1
        result := (AddToHot.finish cidDecode stream).result } := by
  rw [AddToHot, addToHot_loop_reads cidDecode stream body 0 _ hbody (fun k _ => hsend _),
    addToHot_loop_last cidDecode stream _ last rest hlast hlen (hsend _)]
  simp [Upload.after, AddToHot.finish]

theorem sourceLen_full (body : List ReadResult) (last : ReadResult)
    (hfull : ∀ rd ∈ body, rd.data.length = bufferLen) :
    sourceLen (body ++ [last]) = body.length * bufferLen + last.data.length := by
  induction body with
  | nil => simp [sourceLen]
  | cons rd rds ih =>
    have h1 := hfull rd (List.mem_cons_self _ _)
    have h2 := ih (fun r hr => hfull r (List.mem_cons_of_mem _ hr))
    simp only [sourceLen, List.cons_append, List.map_cons, List.sum_cons, List.length_cons] at h2 ⊢
    rw [h2, h1]
    ring

/-! ## Contract of the chunked upload -/

/-- C3, as the spec states it, fails: a one byte source read without error the way
`bytes.Reader` delivers it (the byte, then `(0, io.EOF)`) on a stream that accepts every frame
makes `AddToHot` transmit two frames, where `max(1, ceil(1 / 32768))` is one. -/
theorem addToHot_frame_count_counterexample :
    ReadsToEOF lazySource ∧ acceptingStream.accepting ∧ sourceLen lazySource = 1 ∧
      (AddToHot sampleDecode (Except.ok acceptingStream) lazySource).frames = [[7], []] ∧
      (AddToHot sampleDecode (Except.ok acceptingStream) lazySource).frames.length ≠
        framesExpected (sourceLen lazySource) := by
  refine ⟨⟨[{ data := [7], err := none }], { data := [], err := some Error.EOF }, rfl, rfl,
    by simp, ?_⟩, fun _ => rfl, rfl, by decide, by decide⟩
  intro rd hrd
  simp only [List.mem_singleton] at hrd
  subst hrd
  exact ⟨rfl, by simp [bufferLen]⟩

/-- C3, amended: for a source read without error (reads `body`, then the read `last` that
returns `io.EOF`) on a stream that accepts every frame, `AddToHot` transmits exactly one frame
per `Read` made, the one that returns `io.EOF` included, then performs exactly one
`CloseAndRecv` and returns the content address decoded from that response. The number of frames
is `max(1, ceil(len / 32768))` when every read before the last fills the buffer and the last
read returns its bytes, at least one unless it is the only read, together with `io.EOF`. -/
theorem addToHot_one_frame_per_read (cidDecode : String → Except Error cid.Cid)
    (stream : rpc.FFS_AddToHotClient) (body : List ReadResult) (last : ReadResult)
    (rest : List ReadResult)
    (hbody : ∀ rd ∈ body, rd.err = none ∧ rd.data.length ≤ bufferLen)
    (hlast : last.err = some Error.EOF) (hlen : last.data.length ≤ bufferLen)
    (hsend : stream.accepting)
    (reply : Option rpc.AddToHotReply) (c : cid.Cid)
    (hclose : stream.CloseAndRecv = (reply, none))
    (hdec : cidDecode (rpc.AddToHotReply.GetCid reply) = Except.ok c) :
    AddToHot cidDecode (Except.ok stream) (body ++ last :: rest) =
        { ops := ((body ++ [last]).map fun rd => rd.data).map StreamOp.Send ++
            [StreamOp.CloseAndRecv]
          reads := body.length + 1
          result := Outcome.returned (some c, none) } ∧
      (AddToHot cidDecode (Except.ok stream) (body ++ last :: rest)).frames.length =
        body.length + 1 ∧
      (AddToHot cidDecode (Except.ok stream) (body ++ last :: rest)).ops.count
        StreamOp.CloseAndRecv = 1 ∧
      ((∀ rd ∈ body, rd.data.length = bufferLen) → (body ≠ [] → last.data ≠ []) →
        (AddToHot cidDecode (Except.ok stream) (body ++ last :: rest)).frames.length =
          framesExpected (sourceLen (body ++ [last]))) := by
  have hrun := addToHot_loop_complete cidDecode stream body last rest hbody hlast hlen hsend
  have hres : (AddToHot.finish cidDecode stream).result = Outcome.returned (some c, none) := by
    simp [AddToHot.finish, hclose, hdec]
  have hframes : (AddToHot cidDecode (Except.ok stream) (body ++ last :: rest)).frames.length =
      body.length + 1 := by
    rw [hrun, upload_frames_sends]
    simp [Upload.frames]
  refine ⟨?_, hframes, ?_, ?_⟩
  · rw [hrun, hres]
  · rw [hrun]
    simp [List.count_eq_zero]
  · intro hfull hne
    rw [hframes, sourceLen_full body last hfull, framesExpected]
    have hl : 0 < last.data.length ∨ body.length = 0 := by
      cases body with
      | nil => exact Or.inr rfl
      | cons b bs => exact Or.inl (List.length_pos.mpr (hne (by simp)))
    simp only [bufferLen] at hlen ⊢
    omega

/-- Witness of the amended C3: the one byte source of the counterexample gives two frames, one
`CloseAndRecv` and the decoded address. -/
theorem addToHot_one_frame_per_read_witness :
    acceptingStream.accepting ∧
      AddToHot sampleDecode (Except.ok acceptingStream) lazySource =
        { ops := [StreamOp.Send [7], StreamOp.Send [], StreamOp.CloseAndRecv]
          reads := 2
          result := Outcome.returned (some { str := "Qm1" }, none) } :=
  ⟨fun _ => rfl,
    (addToHot_one_frame_per_read sampleDecode acceptingStream [{ data := [7], err := none }]
      { data := [], err := some Error.EOF } []
      (fun rd hrd => by
        simp only [List.mem_singleton] at hrd
        subst hrd
        exact ⟨rfl, by simp [bufferLen]⟩)
      rfl (by simp) (fun _ => rfl) (some { Cid := "Qm1" }) { str := "Qm1" } rfl rfl).1⟩

/-- C4: for a source read without error on a stream that accepts every frame, the chunks
`AddToHot` sends, concatenated in transmission order, are exactly the bytes of the source,
whatever the sizes of the individual reads and whether or not the last bytes come together with
`io.EOF`; and in every run whatsoever each transmitted chunk has at most 32768 bytes. -/
theorem addToHot_chunks_concat_to_source (cidDecode : String → Except Error cid.Cid)
    (stream : rpc.FFS_AddToHotClient) (body : List ReadResult) (last : ReadResult)
    (rest : List ReadResult)
    (hbody : ∀ rd ∈ body, rd.err = none ∧ rd.data.length ≤ bufferLen)
    (hlast : last.err = some Error.EOF) (hlen : last.data.length ≤ bufferLen)
    (hsend : stream.accepting) :
    (AddToHot cidDecode (Except.ok stream) (body ++ last :: rest)).frames.flatten =
        sourceBytes (body ++ [last]) ∧
      ∀ (opened : Except Error rpc.FFS_AddToHotClient) (data : List ReadResult),
        ∀ chunk ∈ (AddToHot cidDecode opened data).frames, chunk.length ≤ 32768 := by
  constructor
  · rw [addToHot_loop_complete cidDecode stream body last rest hbody hlast hlen hsend,
      upload_frames_sends]
    simp [Upload.frames, sourceBytes]
  · intro opened data chunk hchunk
    cases opened with
    | error e => simp [AddToHot, Upload.frames] at hchunk
    | ok st => exact addToHot_loop_frames_bounded cidDecode st data 0 chunk hchunk

/-- Witness of C4: a short read, an empty read and a last read that carries bytes together with
`io.EOF`. -/
theorem addToHot_chunks_concat_to_source_witness :
    acceptingStream.accepting ∧
      (AddToHot sampleDecode (Except.ok acceptingStream)
        [{ data := [1, 2], err := none }, { data := [], err := none },
         { data := [3], err := some Error.EOF }]).frames.flatten = [1, 2, 3] :=
  ⟨fun _ => rfl,
    (addToHot_chunks_concat_to_source sampleDecode acceptingStream
      [{ data := [1, 2], err := none }, { data := [], err := none }]
      { data := [3], err := some Error.EOF } []
      (fun rd hrd => by
        simp only [List.mem_cons, List.mem_singleton, List.not_mem_nil, or_false] at hrd
        rcases hrd with rfl | rfl <;> exact ⟨rfl, by simp [bufferLen]⟩)
      rfl (by simp [bufferLen]) (fun _ => rfl)).1⟩

/-- C5: when, after the reads `body` were sent, the `Send` of the next read is rejected with
`io.EOF`, `AddToHot` sends no further frame, makes no further `Read`, calls `RecvMsg` once and
returns no content address together with the result of that `RecvMsg`, not the send error; it
never calls `CloseAndRecv`. When that `Send` fails with any other error, the send error is
returned with no content address and nothing else is called on the stream. -/
theorem addToHot_rejected_send (cidDecode : String → Except Error cid.Cid)
    (stream : rpc.FFS_AddToHotClient) (body : List ReadResult) (rd : ReadResult)
    (rest : List ReadResult)
    (hbody : ∀ r ∈ body, r.err = none ∧ r.data.length ≤ bufferLen)
    (hrd : rd.err = none ∨ rd.err = some Error.EOF) (hlen : rd.data.length ≤ bufferLen)
    (hsent : ∀ k, k < body.length → stream.Send k = none)
    (sendErr : Error) (hrej : stream.Send body.length = some sendErr) :
    (sendErr = Error.EOF →
      AddToHot cidDecode (Except.ok stream) (body ++ rd :: rest) =
        { ops := (body.map fun r => StreamOp.Send r.data) ++
            [StreamOp.Send rd.data, StreamOp.RecvMsg]
          reads := body.length + 1
          result := Outcome.returned (none, stream.RecvMsg) }) ∧
    (sendErr ≠ Error.EOF →
      AddToHot cidDecode (Except.ok stream) (body ++ rd :: rest) =
        { ops := (body.map fun r => StreamOp.Send r.data) ++ [StreamOp.Send rd.data]
          reads := body.length + 1
          result := Outcome.returned (none, some sendErr) }) := by
  have hrun : AddToHot cidDecode (Except.ok stream) (body ++ rd :: rest) =
      { ops := (body.map fun r => StreamOp.Send r.data) ++
          (AddToHot.loop cidDecode stream body.length (rd :: rest)).ops
        reads := body.length + (AddToHot.loop cidDecode stream body.length (rd :: rest)).reads
        result := (AddToHot.loop cidDecode stream body.length (rd :: rest)).result } := by
    rw [AddToHot, addToHot_loop_reads cidDecode stream body 0 _ hbody
      (fun k hk => by simpa using hsent k hk)]
    simp
  have hstep := addToHot_loop_rejected cidDecode stream body.length rd rest hrd hlen sendErr hrej
  constructor
  · intro h
    rw [hrun, hstep, if_pos h]
  · intro h
    rw [hrun, hstep, if_neg h]

/-- Witness of C5: the server terminated the stream before the second frame. -/
theorem addToHot_rejected_send_witness :
    closedStream.Send 1 = some Error.EOF ∧
      AddToHot sampleDecode (Except.ok closedStream)
          [{ data := [1, 2], err := none }, { data := [3], err := none },
           { data := [4], err := some Error.EOF }] =
        { ops := [StreamOp.Send [1, 2], StreamOp.Send [3], StreamOp.RecvMsg]
          reads := 2
          result := Outcome.returned (none, some (Error.grpc 3 "invalid argument")) } :=
  ⟨rfl,
    (addToHot_rejected_send sampleDecode closedStream [{ data := [1, 2], err := none }]
      { data := [3], err := none } [{ data := [4], err := some Error.EOF }]
      (fun r hr => by
        simp only [List.mem_singleton] at hr
        subst hr
        exact ⟨rfl, by simp [bufferLen]⟩)
      (Or.inl rfl) (by simp [bufferLen])
      (fun k hk => by
        have hk0 : k = 0 := by simpa using hk
        subst hk0
        rfl)
      Error.EOF rfl).1 rfl⟩

/-- C6: when the `Read` that follows the reads `body` returns an error other than `io.EOF`,
with or without bytes, `AddToHot` returns that error and no content address, has sent exactly
the frames of the earlier reads and none for the failing one, and has called neither
`CloseAndRecv` nor `RecvMsg`. -/
theorem addToHot_read_error_aborts (cidDecode : String → Except Error cid.Cid)
    (stream : rpc.FFS_AddToHotClient) (body : List ReadResult) (rd : ReadResult)
    (rest : List ReadResult)
    (hbody : ∀ r ∈ body, r.err = none ∧ r.data.length ≤ bufferLen)
    (hsent : ∀ k, k < body.length → stream.Send k = none)
    (e : Error) (hrd : rd.err = some e) (hne : e ≠ Error.EOF) :
    AddToHot cidDecode (Except.ok stream) (body ++ rd :: rest) =
        { ops := body.map fun r => StreamOp.Send r.data
          reads := body.length + 1
          result := Outcome.returned (none, some e) } ∧
      (AddToHot cidDecode (Except.ok stream) (body ++ rd :: rest)).frames =
        body.map (fun r => r.data) ∧
      StreamOp.CloseAndRecv ∉ (AddToHot cidDecode (Except.ok stream) (body ++ rd :: rest)).ops ∧
      StreamOp.RecvMsg ∉ (AddToHot cidDecode (Except.ok stream) (body ++ rd :: rest)).ops := by
  have hrun : AddToHot cidDecode (Except.ok stream) (body ++ rd :: rest) =
      { ops := body.map fun r => StreamOp.Send r.data
        reads := body.length + 1
        result := Outcome.returned (none, some e) } := by
    rw [AddToHot, addToHot_loop_reads cidDecode stream body 0 _ hbody
      (fun k hk => by simpa using hsent k hk)]
    simp only [Nat.zero_add]
    rw [addToHot_loop_read_error cidDecode stream body.length rd rest e hrd hne]
    simp
  refine ⟨hrun, ?_, ?_, ?_⟩
  · rw [hrun, upload_frames_of_reads]
  · rw [hrun]
    simp
  · rw [hrun]
    simp

/-- Witness of C6: the second read fails after delivering a byte. -/
theorem addToHot_read_error_aborts_witness :
    AddToHot sampleDecode (Except.ok acceptingStream)
        [{ data := [1, 2], err := none }, { data := [9], err := some (Error.other "disk") },
         { data := [], err := some Error.EOF }] =
      { ops := [StreamOp.Send [1, 2]]
        reads := 2
        result := Outcome.returned (none, some (Error.other "disk")) } :=
  (addToHot_read_error_aborts sampleDecode acceptingStream [{ data := [1, 2], err := none }]
    { data := [9], err := some (Error.other "disk") } [{ data := [], err := some Error.EOF }]
    (fun r hr => by
      simp only [List.mem_singleton] at hr
      subst hr
      exact ⟨rfl, by simp [bufferLen]⟩)
    (fun _ _ => rfl) (Error.other "disk") rfl (by simp)).1

/-! ## Contract of the request builders and one-shot calls -/

/-- C7: the request `PushConfig` builds from no option carries the address string and nothing
else (no config body, `HasConfig`, `HasOverrideConfig` and `OverrideConfig` all false); the
request built from the single option `WithCidConfig cfg` has `HasConfig` set and a config body,
for every `cfg` and so for the all-zero one, and differs from the former. -/
theorem pushConfig_default_differs_from_config (cidString : cid.Cid → String) (c : cid.Cid)
    (cfg : ff.CidConfig) :
    PushConfig.request cidString c [] =
        { Cid := cidString c, Config := none, HasConfig := false, OverrideConfig := false,
          HasOverrideConfig := false } ∧
      (PushConfig.request cidString c [WithCidConfig cidString cfg]).HasConfig = true ∧
      (PushConfig.request cidString c [WithCidConfig cidString cfg]).Config =
        some { Cid := cidString cfg.Cid, Hot := toRPCHotConfig cfg.Hot,
               Cold := toRPCColdConfig cfg.Cold } ∧
      PushConfig.request cidString c [WithCidConfig cidString cfg] ≠
        PushConfig.request cidString c [] ∧
      PushConfig.request cidString c [WithCidConfig cidString {}] ≠
        PushConfig.request cidString c [] := by
  refine ⟨rfl, rfl, rfl, ?_, ?_⟩
  · intro h
    have := congrArg rpc.PushConfigRequest.HasConfig h
    simp [PushConfig.request, WithCidConfig] at this
  · intro h
    have := congrArg rpc.PushConfigRequest.HasConfig h
    simp [PushConfig.request, WithCidConfig] at this

theorem foldl_keeps_hasOverride (cidString : cid.Cid → String) (back : List PushConfigOption)
    (hback : ∀ o ∈ back, (∃ cfg, o = WithCidConfig cidString cfg) ∨ ∃ b, o = WithOverride b)
    (r : rpc.PushConfigRequest) (hr : r.HasOverrideConfig = true) :
    (back.foldl (fun req opt => opt req) r).HasOverrideConfig = true := by
  induction back generalizing r with
  | nil => exact hr
  | cons o os ih =>
    rw [List.foldl_cons]
    apply ih (fun o2 h2 => hback o2 (List.mem_cons_of_mem _ h2))
    rcases hback o (List.mem_cons_self _ _) with ⟨cfg, rfl⟩ | ⟨b, rfl⟩
    · exact hr
    · rfl

theorem foldl_keeps_override (cidString : cid.Cid → String) (back : List PushConfigOption)
    (hback : ∀ o ∈ back, (∃ cfg, o = WithCidConfig cidString cfg) ∨ ∃ b, o = WithOverride b)
    (hlast : ∀ o ∈ back, o ≠ WithOverride false)
    (r : rpc.PushConfigRequest) (hr : r.OverrideConfig = true) :
    (back.foldl (fun req opt => opt req) r).OverrideConfig = true := by
  induction back generalizing r with
  | nil => exact hr
  | cons o os ih =>
    rw [List.foldl_cons]
    apply ih (fun o2 h2 => hback o2 (List.mem_cons_of_mem _ h2))
      (fun o2 h2 => hlast o2 (List.mem_cons_of_mem _ h2))
    have hne := hlast o (List.mem_cons_self _ _)
    rcases hback o (List.mem_cons_self _ _) with ⟨cfg, rfl⟩ | ⟨b, rfl⟩
    · exact hr
    · cases b with
      | false => exact absurd rfl hne
      | true => rfl

/-- C8, as the spec states it, fails: the list `[WithOverride(true), WithOverride(false)]`
contains `WithOverride(true)`, and the request built from it has `OverrideConfig = false`. -/
theorem pushConfig_override_counterexample :
    WithOverride true ∈ [WithOverride true, WithOverride false] ∧
      (PushConfig.request sampleString {} [WithOverride true, WithOverride false]).OverrideConfig
        = false ∧
      (PushConfig.request sampleString {}
        [WithOverride true, WithOverride false]).HasOverrideConfig = true :=
  ⟨List.mem_cons_self _ _, rfl, rfl⟩

/-- C8, amended: for a list of modifiers in which `WithOverride(true)` occurs, whatever stands
before it, and is followed only by `WithCidConfig` and `WithOverride` modifiers, the request
`PushConfig` builds has `HasOverrideConfig = true`; and it has `OverrideConfig = true` when no
`WithOverride(false)` follows, that is when the last `WithOverride` of the list is
`WithOverride(true)`. -/
theorem pushConfig_last_override_wins (cidString : cid.Cid → String) (c : cid.Cid)
    (front back : List PushConfigOption)
    (hback : ∀ o ∈ back, (∃ cfg, o = WithCidConfig cidString cfg) ∨ ∃ b, o = WithOverride b) :
    (PushConfig.request cidString c (front ++ WithOverride true :: back)).HasOverrideConfig
        = true ∧
      ((∀ o ∈ back, o ≠ WithOverride false) →
        (PushConfig.request cidString c (front ++ WithOverride true :: back)).OverrideConfig
          = true) := by
  constructor
  · rw [PushConfig.request, List.foldl_append, List.foldl_cons]
    exact foldl_keeps_hasOverride cidString back hback _ rfl
  · intro hlast
    rw [PushConfig.request, List.foldl_append, List.foldl_cons]
    exact foldl_keeps_override cidString back hback hlast _ rfl

/-- Witness of the amended C8: `WithOverride(true)` after a `WithOverride(false)` and before a
`WithCidConfig`. -/
theorem pushConfig_last_override_wins_witness :
    (PushConfig.request sampleString {}
        [WithOverride false, WithOverride true, WithCidConfig sampleString {}]).HasOverrideConfig
        = true ∧
      (PushConfig.request sampleString {}
        [WithOverride false, WithOverride true, WithCidConfig sampleString {}]).OverrideConfig
        = true :=
  have hback : ∀ o ∈ [WithCidConfig sampleString {}],
      (∃ cfg, o = WithCidConfig sampleString cfg) ∨ ∃ b, o = WithOverride b :=
    fun o ho => Or.inl ⟨{}, List.mem_singleton.mp ho⟩
  have h := pushConfig_last_override_wins sampleString {} [WithOverride false]
    [WithCidConfig sampleString {}] hback
  ⟨h.1, h.2 (fun o ho hfalse => by
    rw [List.mem_singleton.mp ho] at hfalse
    have := congrArg (fun f => (f {}).HasConfig) hfalse
    simp [WithCidConfig, WithOverride] at this)⟩

/-- C9 on the code: when the underlying RPC fails and returns no response message, `PushConfig`
and `Replace` return that error with the empty `JobID`, but `NewAddr` faults: it reads
`resp.Addr` from the nil response before it looks at the error. -/
theorem newAddr_faults_on_rpc_error (cidString : cid.Cid → String) (err : Error)
    (name : String) (options : List NewAddressOption) (c c2 : cid.Cid)
    (opts : List PushConfigOption) :
    NewAddr (failingCall err) name options = Outcome.faulted ∧
      PushConfig cidString (failingCall err) c opts =
        Outcome.returned (ff.EmptyJobID, some err) ∧
      Replace cidString (failingCall err) c c2 = Outcome.returned (ff.EmptyJobID, some err) :=
  ⟨rfl, rfl, rfl⟩

theorem wrapSigned_of_inInt64 (x : Int) (h : InInt64 x) : wrapSigned 64 x = x := by
  simp only [InInt64, wrapSigned] at *
  norm_num at *
  omega

/-- C10: for every `ff.DefaultConfig` whose integer fields are within the signed 64 bit range,
the payload `SetDefaultConfig` builds carries every field under the name of the same meaning
(excluded miners as `ExcludedMiners`, trusted miners as `TrustedMiners`, and so on), and
`DefaultConfig`, given that payload as the reply of the server, returns the configuration
again, without error. -/
theorem defaultConfig_roundtrip (cfg : ff.DefaultConfig) (h : cfg.InRange) :
    SetDefaultConfig.request cfg =
        { Config := some {
            Hot := some {
              Enabled := cfg.Hot.Enabled
              AllowUnfreeze := cfg.Hot.AllowUnfreeze
              Ipfs := some { AddTimeout := cfg.Hot.Ipfs.AddTimeout } }
            Cold := some {
              Enabled := cfg.Cold.Enabled
              Filecoin := some {
                RepFactor := cfg.Cold.Filecoin.RepFactor
                DealDuration := cfg.Cold.Filecoin.DealDuration
                ExcludedMiners := cfg.Cold.Filecoin.ExcludedMiners
                TrustedMiners := cfg.Cold.Filecoin.TrustedMiners
                CountryCodes := cfg.Cold.Filecoin.CountryCodes
                Renew := some {
                  Enabled := cfg.Cold.Filecoin.Renew.Enabled
                  Threshold := cfg.Cold.Filecoin.Renew.Threshold }
                Addr := cfg.Cold.Filecoin.Addr } } } } ∧
      DefaultConfig (some { DefaultConfig := (SetDefaultConfig.request cfg).Config }, none) =
        Outcome.returned (cfg, none) := by
  obtain ⟨h1, h2, h3, h4⟩ := h
  have e1 := wrapSigned_of_inInt64 _ h1
  have e2 := wrapSigned_of_inInt64 _ h2
  have e3 := wrapSigned_of_inInt64 _ h3
  have e4 := wrapSigned_of_inInt64 _ h4
  constructor
  · simp [SetDefaultConfig.request, toRPCHotConfig, toRPCColdConfig, toInt64, e1, e2, e3, e4]
  · simp [DefaultConfig, SetDefaultConfig.request, toRPCHotConfig, toRPCColdConfig, toInt64,
      toInt, e1, e2, e3, e4, deref, bind, Outcome.bind]

/-- Witness of C10: a policy with distinct excluded and trusted miner lists. -/
theorem defaultConfig_roundtrip_witness :
    sampleConfig.InRange ∧
      DefaultConfig (some { DefaultConfig := (SetDefaultConfig.request sampleConfig).Config },
        none) = Outcome.returned (sampleConfig, none) :=
  have hr : sampleConfig.InRange := by
    simp [ff.DefaultConfig.InRange, InInt64, sampleConfig]
  ⟨hr, (defaultConfig_roundtrip sampleConfig hr).2⟩

end Powergate
